import Mathlib

/-!
# Verification of the Bond-Extractor row extraction pipeline

Shallow embedding of `src/app.py`: a pipeline that collects entity names
across the sheets of a workbook, filters rows by selected names and a
positive-"Units" predicate, enriches the surviving rows with an ISIN
identifier found in a secondary lookup table, and renders a formatted
output workbook.

Cells are modelled by the inductive type `Value` (string, rational number,
calendar date encoded as a natural number, or null — pandas NaN/NaT).
A pandas row is an ordered mapping from column name to `Value`,
modelled as `List (String × Value)`; a sheet's data is a `List Row`.
String helpers (`strip`, `lower`, substring containment) are implemented
over `String.data` so that every definition evaluates by kernel reduction.
-/

namespace BondExtractor

/-- A scalar cell value: string, number, boolean (Excel `TRUE`/`FALSE`
cells), date (encoded as a `Nat`, e.g. `y*10000 + m*100 + d`), or null
(pandas `NaN`/`NaT`/Python `None`). -/
inductive Value where
  | str (s : String)
  | num (q : Rat)
  | bool (b : Bool)
  | date (d : Nat)
  | null
deriving DecidableEq

/-- Models Python `str(·)` / pandas `.astype(str)` on a cell.
pandas renders a missing value (`NaN`) as the string `"nan"`; booleans
render as `"True"`/`"False"`.  Numbers render canonically for `Rat`
(`0` → `"0"`), whereas Python renders float cells with a decimal point
(`str(0.0) = "0.0"`): the theorems below only use the stringification
on both sides of an equation at once, never on one side alone, so none
depends on the exact rendering of a number. -/
def Value.toStr : Value → String
  | .str s => s
  | .num q => toString q
  | .bool b => if b then "True" else "False"
  | .date d => toString d
  | .null => "nan"

/-- A row: an ordered mapping from column name to cell value
(the spec's Row data model). -/
abbrev Row := List (String × Value)

/-- Value of column `c` in row `r` (first occurrence), `null` if absent. -/
def Row.get (r : Row) (c : String) : Value :=
  match r.find? (fun p => p.1 == c) with
  | some p => p.2
  | none => Value.null

/-- Does row `r` carry a column named `c`? -/
def Row.hasCol (r : Row) (c : String) : Bool :=
  r.any (fun p => p.1 == c)

/-- The ordered column names of a row. -/
def Row.keys (r : Row) : List String :=
  r.map Prod.fst

/-- ASCII whitespace, as stripped by Python `str.strip()`. -/
def isSpaceChar (c : Char) : Bool :=
  c == ' ' || c == '\t' || c == '\n' || c == '\r'

/-- Models Python `str.strip()`: drop leading and trailing whitespace. -/
def stripChars (l : List Char) : List Char :=
  ((l.dropWhile isSpaceChar).reverse.dropWhile isSpaceChar).reverse

/-- Models Python `str.lower()` on an ASCII character. -/
def lowerChar (c : Char) : Char :=
  if 65 ≤ c.toNat && c.toNat ≤ 90 then Char.ofNat (c.toNat + 32) else c

/-- `hasInfix sub l`: does `sub` occur as a contiguous run inside `l`?
Models Python `sub in s` on the underlying character lists. -/
def hasInfix (sub : List Char) : List Char → Bool
  | [] => sub.isEmpty
  | c :: t => sub.isPrefixOf (c :: t) || hasInfix sub t

/-- Models Python `pat in s` (case-sensitive substring containment). -/
def strContains (s pat : String) : Bool :=
  hasInfix pat.data s.data

/-- Models Python `pat in s.lower()` for an already-lowercase pattern `pat`. -/
def strContainsLower (s pat : String) : Bool :=
  hasInfix pat.data (s.data.map lowerChar)

/-- Case-insensitive substring containment (both sides lowered);
used only to state the spec's "case-insensitive" wording. -/
def strContainsCI (s pat : String) : Bool :=
  hasInfix (pat.data.map lowerChar) (s.data.map lowerChar)

/-- All-digit character run to its numeric value (`none` on empty or
non-digit input). -/
def digitsVal? : List Char → Option Nat
  | [] => none
  | cs => if cs.all Char.isDigit then
      some (cs.foldl (fun n c => n * 10 + (c.toNat - 48)) 0)
    else none

/-- Split a character list at the first `'.'` (integer part, fraction part). -/
def splitDot : List Char → List Char × Option (List Char)
  | [] => ([], none)
  | c :: t =>
    if c == '.' then ([], some t)
    else
      let (a, b) := splitDot t
      (c :: a, b)

/-- Models the string case of `pd.to_numeric(·, errors="coerce")`: an
optional sign, a digit run, and an optional decimal fraction parse to a
rational; anything else coerces to `none` (pandas `NaN`). -/
def parseNumString (s : String) : Option Rat :=
  let core : List Char → Option Rat := fun body =>
    match splitDot body with
    | (ip, none) => (digitsVal? ip).map (fun n => (n : Rat))
    | (ip, some fp) =>
      match digitsVal? ip, digitsVal? fp with
      | some n, some f => some ((n : Rat) + (f : Rat) / ((10 : Rat) ^ fp.length))
      | _, _ => none
  match s.data with
  | '-' :: t => (core t).map (fun q => -q)
  | '+' :: t => core t
  | t => core t

/-- Models `pd.to_numeric(·, errors="coerce")` on one cell: numbers pass
through, numeric strings parse, booleans behave as `1`/`0` (a Python
`bool` is an `int`), everything else (dates, null, non-numeric strings)
coerces to `none` (pandas `NaN`, which fails every comparison). -/
def parseNum : Value → Option Rat
  | .num q => some q
  | .str s => parseNumString s
  | .bool b => some (if b then 1 else 0)
  | .date _ => none
  | .null => none

/-- Split a character list on a separator character. -/
def splitOnChar (sep : Char) : List Char → List (List Char)
  | [] => [[]]
  | c :: t =>
    let r := splitOnChar sep t
    if c == sep then [] :: r
    else
      match r with
      | [] => [[c]]
      | h :: t2 => (c :: h) :: t2

/-- ISO `YYYY-MM-DD` string to the date encoding `y*10000 + m*100 + d`;
`none` for any other shape. -/
def parseDateString (s : String) : Option Nat :=
  match splitOnChar '-' s.data with
  | [y, m, d] =>
    match digitsVal? y, digitsVal? m, digitsVal? d with
    | some yv, some mv, some dv => some (yv * 10000 + mv * 100 + dv)
    | _, _, _ => none
  | _ => none

/-- Models `pd.to_datetime(·, errors="coerce")` on one cell: dates pass
through, ISO date strings parse, anything else coerces to `none`
(pandas `NaT`).  The epoch interpretation pandas gives to raw numbers is
not modelled; no claim exercises a numeric date cell. -/
def parseDate : Value → Option Nat
  | .date d => some d
  | .str s => parseDateString s
  | .num _ => none
  | .bool _ => none
  | .null => none

/-- Models pandas element-wise `==` between two cells: a missing value
(`NaN`) compares unequal to everything, including itself; values of
different kinds compare unequal.  (The numeric coercion pandas applies
between booleans and numbers, `True == 1`, is not modelled; no claim
exercises a boolean entity key.) -/
def valEq : Value → Value → Bool
  | .null, _ => false
  | _, .null => false
  | .str a, .str b => a == b
  | .num a, .num b => a == b
  | .bool a, .bool b => a == b
  | .date a, .date b => a == b
  | _, _ => false

/-- Models pandas `==` between two coerced date cells: `NaT` (here `none`)
compares unequal to everything, including `NaT` itself. -/
def optDateEq : Option Nat → Option Nat → Bool
  | some a, some b => a == b
  | _, _ => false

/-- One row of the lookup workbook after parsing: columns A, B, F, H read
as (`nbfc`, `isin`, `issue_date`, `maturity_date`), the two dates already
coerced by `pd.to_datetime(·, errors="coerce")` (`none` = `NaT`). -/
structure LookupEntry where
  nbfc : Value
  isin : Value
  issue : Option Nat
  maturity : Option Nat
deriving DecidableEq

/-- Build a lookup entry from the four raw cells of a lookup-file row,
applying the date coercion of `app.py` lines 38-39. -/
def mkLookupEntry (n i d1 d2 : Value) : LookupEntry :=
  ⟨n, i, parseDate d1, parseDate d2⟩

/-- The boolean mask of `get_isin` for one lookup entry: all three fields
equal the query under pandas `==` (nulls never match). -/
def entryMatches (k : Value) (d1 d2 : Option Nat) (e : LookupEntry) : Bool :=
  valEq e.nbfc k && optDateEq e.issue d1 && optDateEq e.maturity d2

/-- The lookup of `get_isin`: the `isin` of the first entry (in table
order) whose three fields equal the query, else the empty string. -/
def lookupFind (tbl : List LookupEntry) (k : Value) (d1 d2 : Option Nat) : Value :=
  match tbl.find? (entryMatches k d1 d2) with
  | some e => e.isin
  | none => Value.str ""

/-- The per-row predicate of `app.py` lines 47-48:
`df['Name'].astype(str).isin(selected_names) & (pd.to_numeric(df['Units'], errors='coerce') > 0)`. -/
def rowPred (sel : List String) (r : Row) : Bool :=
  sel.contains (Value.toStr (r.get "Name")) &&
    (match parseNum (r.get "Units") with
     | some q => decide (0 < q)
     | none => false)

/-- RowFilter: keep the rows satisfying `rowPred`, in order. -/
def rowFilter (rows : List Row) (sel : List String) : List Row :=
  rows.filter (rowPred sel)

/-- `app.py` lines 52-53: a column is dropped when its name strips to the
empty string or starts with `"Unnamed"`. -/
def isGhostCol (c : String) : Bool :=
  (stripChars c.data).isEmpty || List.isPrefixOf "Unnamed".data c.data

/-- Drop ghost (blank / `Unnamed`) columns from a row. -/
def dropGhost (r : Row) : Row :=
  r.filter (fun p => !isGhostCol p.1)

/-- The column list of a table (all rows of one sheet share it). -/
def tableCols (rows : List Row) : List String :=
  match rows with
  | [] => []
  | r :: _ => r.keys

/-- `app.py` lines 57-59: insert an empty `"ISIN"` column immediately
after the first `"NBFC"` column. -/
def insertISIN : Row → Row
  | [] => []
  | (k, v) :: rest =>
    if k == "NBFC" then (k, v) :: ("ISIN", Value.str "") :: rest
    else (k, v) :: insertISIN rest

/-- `app.py` lines 64-65 on one cell: the `"Issue Date"` and
`"Maturity Date"` cells are replaced by their coerced date (`NaT` =
`Value.null` when unparseable); other cells are untouched. -/
def coerceDateCell (p : String × Value) : String × Value :=
  if p.1 == "Issue Date" || p.1 == "Maturity Date" then
    (p.1, match parseDate p.2 with
          | some d => Value.date d
          | none => Value.null)
  else p

/-- Apply the date coercion to a whole row. -/
def coerceDates (r : Row) : Row :=
  r.map coerceDateCell

/-- The coerced date carried by a cell (`NaT`/non-date reads as `none`). -/
def Value.asDate : Value → Option Nat
  | .date d => some d
  | _ => none

/-- `get_isin` (`app.py` lines 67-73) on one (already date-coerced) row. -/
def getIsin (lk : List LookupEntry) (r : Row) : Value :=
  lookupFind lk (r.get "NBFC") (r.get "Issue Date").asDate (r.get "Maturity Date").asDate

/-- Models pandas column assignment `df[c] = v`: replace the value of an
existing column `c`, or append `c` at the end when absent. -/
def setCol (r : Row) (c : String) (v : Value) : Row :=
  if r.hasCol c then r.map (fun p => if p.1 == c then (p.1, v) else p)
  else r ++ [(c, v)]

/-- `app.py` lines 57-59 at table level: when the table has an `"NBFC"`
column, insert the empty `"ISIN"` column after it in every row. -/
def insertStep (rows : List Row) : List Row :=
  if (tableCols rows).contains "NBFC" then rows.map insertISIN else rows

/-- IdentifierResolver (`app.py` lines 56-75), acting on a table whose
ghost columns are already dropped: insert the `"ISIN"` column after
`"NBFC"` when present; when a lookup table was uploaded and both date
columns exist, coerce the date columns and fill `"ISIN"` via `get_isin`. -/
def enrichPost (lookupTbl : Option (List LookupEntry)) (rows : List Row) : List Row :=
  match lookupTbl with
  | none => insertStep rows
  | some lk =>
    if (tableCols (insertStep rows)).contains "Issue Date" &&
        (tableCols (insertStep rows)).contains "Maturity Date" then
      ((insertStep rows).map coerceDates).map (fun r => setCol r "ISIN" (getIsin lk r))
    else insertStep rows

/-- Full per-sheet post-filter processing (`app.py` lines 51-75):
drop ghost columns, then enrich. -/
def processSheet (lookupTbl : Option (List LookupEntry)) (rows : List Row) : List Row :=
  enrichPost lookupTbl (rows.map dropGhost)

/-- Outcome of one run: a downloadable artifact holding the combined
rows, the "no matching rows" notice, or nothing (no selection made). -/
inductive Outcome where
  | artifact (rows : List Row)
  | info
  | nothing
deriving DecidableEq

/-- The body of the per-sheet loop (`app.py` lines 44-77): a sheet
contributes its processed filtered table to `combined_rows`, or nothing
when the filter kept no row. -/
def sheetContribution (lookupTbl : Option (List LookupEntry)) (sel : List String)
    (s : List Row) : Option (List Row) :=
  if (rowFilter s sel).isEmpty then none
  else some (processSheet lookupTbl (rowFilter s sel))

/-- `combined_rows`: the non-empty processed tables, in sheet order. -/
def combinedTables (lookupTbl : Option (List LookupEntry)) (sheets : List (List Row))
    (sel : List String) : List (List Row) :=
  sheets.filterMap (sheetContribution lookupTbl sel)

/-- The pipeline body of `app.py` lines 41-175: with a non-empty
selection, filter every sheet, process the non-empty filtered tables,
and either concatenate them into the output artifact or report that no
row matched. -/
def pipeline (lookupTbl : Option (List LookupEntry)) (sheets : List (List Row))
    (sel : List String) : Outcome :=
  if sel.isEmpty then .nothing
  else if (combinedTables lookupTbl sheets sel).isEmpty then .info
  else .artifact (combinedTables lookupTbl sheets sel).flatten

/-- Models `df.columns.get_loc(c)`: the position of the first column
named `c` in a row's ordered column list. -/
def colIndex (c : String) : Row → Nat
  | [] => 0
  | (k, _) :: rest => if k == c then 0 else colIndex c rest + 1

/-- The named cell styles registered by WorkbookFormatter
(`app.py` lines 93-103), plus the default `general` style of an
untouched cell. -/
inductive Style where
  | percentage
  | comma
  | dateDMY
  | monthYear
  | general
deriving DecidableEq

/-- The number-format string each style carries. -/
def Style.numberFormat : Style → String
  | .percentage => "0.00%"
  | .comma => "#,##0"
  | .dateDMY => "DD-MMM-YY"
  | .monthYear => "MMM-YY"
  | .general => "General"

/-- The per-data-cell effect of the formatting loop
(`app.py` lines 111-150) for a column named `col`: the stored value
after the loop and the style assigned to the cell.  The four rules are
tried in source order; only non-null cells are touched. -/
def renderCell (col : String) (v : Value) : Value × Style :=
  if strContains col "Interest" then
    if v ≠ Value.null then
      (match v with
       | .num q => if 1 < q then Value.num (q / 100) else Value.num q
       | w => w,
       Style.percentage)
    else (v, Style.general)
  else if strContains col "Amount" then
    if v ≠ Value.null then (v, Style.comma) else (v, Style.general)
  else if strContains col "Date" &&
      !(strContainsLower col "issue" || strContainsLower col "maturity") then
    if v ≠ Value.null then (v, Style.dateDMY) else (v, Style.general)
  else if strContainsLower col "issue date" || strContainsLower col "maturity date" ||
      strContainsLower col "issue" || strContainsLower col "maturity" then
    if v ≠ Value.null then (v, Style.monthYear) else (v, Style.general)
  else (v, Style.general)

/-- Apply the formatting loop to every data cell of one column. -/
def renderColumn (col : String) (cells : List Value) : List (Value × Style) :=
  cells.map (renderCell col)

/-- Python truthiness of a worksheet cell value: `None`, `0`, `False`
and the empty string are falsy; everything else is truthy. -/
def truthy : Value → Bool
  | .null => false
  | .str s => !(s == "")
  | .num q => !(decide (q = 0))
  | .bool b => b
  | .date _ => true

/-- The display string of a worksheet cell: an empty cell shows as
the empty string, other cells as their `Value.toStr` form. -/
def cellStr : Value → String
  | .null => ""
  | v => Value.toStr v

/-- One iteration of the width loop's `max_length` update
(`app.py` lines 156-159): `if cell.value and len(str(cell.value)) > max_length`. -/
def widthStep (m : Nat) (v : Value) : Nat :=
  if truthy v && decide (m < (cellStr v).length) then (cellStr v).length else m

/-- The `max_length` computation of the width loop
(`app.py` lines 154-161): fold over the cells of one column, counting
only cells whose value is truthy (`if cell.value and ...`). -/
def codeMaxLen (cells : List Value) : Nat :=
  cells.foldl widthStep 0

/-- The width the code assigns to a column whose header cell is
`header` and whose data cells are `cells`
(`app.py` lines 152-163): `min(max_length + 2, 50)`. -/
def codeColWidth (header : String) (cells : List Value) : Nat :=
  min (codeMaxLen (Value.str header :: cells) + 2) 50

/-- Stated from the spec's words for comparison with `codeColWidth`:
"the length of the longest stringified cell value in that column
(headers and data cells alike)". -/
def specLongest (header : String) (cells : List Value) : Nat :=
  ((Value.str header :: cells).map (fun v => (cellStr v).length)).foldl max 0

/-- The quantity the width loop actually maximises: the length of the
longest stringified value among the truthy cells of the column (header
cell included) — cells whose value is falsy are skipped by
`if cell.value and ...`. -/
def specLongestKept (header : String) (cells : List Value) : Nat :=
  (((Value.str header :: cells).filter truthy).map (fun v => (cellStr v).length)).foldl max 0

/-- One sheet as read by `pd.read_excel(..., usecols="A:J")`: its header
column names and its data rows.  The column list is kept separately so
that a sheet with no data rows still has a schema (pandas `df.columns`). -/
structure Sheet where
  cols : List String
  rows : List Row

/-- `df['Name'].dropna().astype(str)` for one sheet: the string forms of
the non-null `"Name"` cells, in row order. -/
def sheetNameStrings (s : Sheet) : List String :=
  (s.rows.filterMap (fun r =>
    match Row.get r "Name" with
    | Value.null => none
    | v => some v)).map Value.toStr

/-- Lexicographic (code-point) comparison of character lists,
as Python string `<=` uses. -/
def listLeChar : List Char → List Char → Bool
  | [], _ => true
  | _ :: _, [] => false
  | a :: as, b :: bs =>
    if a.toNat < b.toNat then true
    else if b.toNat < a.toNat then false
    else listLeChar as bs

/-- Lexicographic string comparison (Python `<=` on `str`). -/
def strLe (a b : String) : Bool :=
  listLeChar a.data b.data

/-- Insert a string into a `strLe`-sorted list, keeping it sorted. -/
def insertSorted (x : String) : List String → List String
  | [] => [x]
  | y :: ys => if strLe x y then x :: y :: ys else y :: insertSorted x ys

/-- Insertion sort by `strLe`; models Python `sorted` on strings. -/
def sortNames (l : List String) : List String :=
  l.foldr insertSorted []

/-- The name-collection loop of `app.py` lines 19-22: concatenate the
non-null stringified `"Name"` cells of every sheet, failing (pandas
`KeyError`, surfaced by the app) at the first sheet whose schema lacks a
`"Name"` column. -/
def gatherNames : List Sheet → Except String (List String)
  | [] => .ok []
  | s :: rest =>
    if s.cols.contains "Name" then
      (gatherNames rest).map (fun l => sheetNameStrings s ++ l)
    else .error "KeyError: Name"

/-- `collectEntityNames` (`app.py` lines 19-23): the sorted, deduplicated
list of names across all sheets (`all_names = sorted(set(...))`), or a
surfaced schema error when some sheet has no `"Name"` column. -/
def collectEntityNames (sheets : List Sheet) : Except String (List String) :=
  (gatherNames sheets).map (fun l => sortNames l.dedup)

/-! ## Helper lemmas about rows -/

theorem Row.get_cons (k : String) (v : Value) (rest : Row) (c : String) :
    Row.get ((k, v) :: rest) c = if k == c then v else Row.get rest c := by
  by_cases h : (k == c) = true <;> simp [Row.get, List.find?, h]

theorem Row.get_nil (c : String) : Row.get [] c = Value.null := rfl

/-- `rowPred` unfolded into the two membership / positivity conditions. -/
theorem rowPred_eq_true_iff (sel : List String) (r : Row) :
    rowPred sel r = true ↔
      sel.contains (Value.toStr (Row.get r "Name")) = true ∧
        ∃ q, parseNum (Row.get r "Units") = some q ∧ 0 < q := by
  unfold rowPred
  cases h : parseNum (Row.get r "Units") with
  | none => simp [h]
  | some q => simp [h, decide_eq_true_iff]

/-- C1: a row survives RowFilter iff the string form of its `"Name"` value
is among the selected names and its `"Units"` value parses as a number
strictly greater than zero; unparseable, zero and negative `"Units"`
values exclude the row (no error is possible: the predicate is total),
and the surviving rows form a sublist of the input, keeping their
original within-sheet order. -/
theorem rowFilter_spec (rows : List Row) (sel : List String)
    (hwf : ∀ r ∈ rows, Row.hasCol r "Name" = true ∧ Row.hasCol r "Units" = true) :
    (∀ r, r ∈ rowFilter rows sel ↔
      r ∈ rows ∧ sel.contains (Value.toStr (Row.get r "Name")) = true ∧
        ∃ q, parseNum (Row.get r "Units") = some q ∧ 0 < q) ∧
    (∀ r ∈ rows, parseNum (Row.get r "Units") = none → r ∉ rowFilter rows sel) ∧
    (∀ r ∈ rows, ∀ q, parseNum (Row.get r "Units") = some q → q ≤ 0 →
      r ∉ rowFilter rows sel) ∧
    List.Sublist (rowFilter rows sel) rows := by
  have hmem : ∀ r, r ∈ rowFilter rows sel ↔
      r ∈ rows ∧ sel.contains (Value.toStr (Row.get r "Name")) = true ∧
        ∃ q, parseNum (Row.get r "Units") = some q ∧ 0 < q := by
    intro r
    rw [rowFilter, List.mem_filter, rowPred_eq_true_iff]
  refine ⟨hmem, ?_, ?_, List.filter_sublist _⟩
  · intro r _ hnone hr
    rcases ((hmem r).mp hr).2.2 with ⟨q, hq, _⟩
    rw [hnone] at hq
    exact Option.noConfusion hq
  · intro r _ q hq hle hr
    rcases ((hmem r).mp hr).2.2 with ⟨q2, hq2, hpos⟩
    rw [hq] at hq2
    exact absurd hpos (not_lt.mpr (Option.some.inj hq2 ▸ hle))

/-- Witness for C1 on a concrete two-row table: the positive-Units row
for a selected name is kept. -/
theorem rowFilter_spec_witness :
    [("Name", Value.str "A"), ("Units", Value.num 10)] ∈
      rowFilter [[("Name", Value.str "A"), ("Units", Value.num 10)],
                 [("Name", Value.str "A"), ("Units", Value.num 0)]] ["A"] :=
  ((rowFilter_spec _ _ (by decide)).1 _).mpr ⟨by decide, by decide, 10, rfl, by decide⟩

/-! ## Lookup-table lemmas -/

theorem valEq_self (v : Value) (h : v ≠ Value.null) : valEq v v = true := by
  cases v <;> simp_all [valEq]

theorem optDateEq_self (d : Option Nat) (h : d ≠ none) : optDateEq d d = true := by
  cases d <;> simp_all [optDateEq]

theorem optDateEq_none_right (d : Option Nat) : optDateEq d none = false := by
  cases d <;> rfl

theorem optDateEq_none_left (d : Option Nat) : optDateEq none d = false := rfl

/-- C2 counterexample: with two entries sharing the same key and
(non-null) dates, `find` returns the first entry's identifier, so the
claim's unconditional round-trip "for an entry (k, id, d1, d2) present in
the table with non-null dates, find(k, d1, d2) == id" fails for the
second entry. -/
theorem lookupFind_spec_counterexample :
    (⟨Value.str "k", Value.str "B", some 1, some 2⟩ : LookupEntry) ∈
      [(⟨Value.str "k", Value.str "A", some 1, some 2⟩ : LookupEntry),
       ⟨Value.str "k", Value.str "B", some 1, some 2⟩] ∧
    (some 1 : Option Nat) ≠ none ∧ (some 2 : Option Nat) ≠ none ∧
    lookupFind [⟨Value.str "k", Value.str "A", some 1, some 2⟩,
                ⟨Value.str "k", Value.str "B", some 1, some 2⟩]
      (Value.str "k") (some 1) (some 2) ≠ Value.str "B" := by decide

/-- C2 (amended): `find` returns the identifier of the first entry in
table order whose three fields exactly equal the query under the coerced
comparison, and returns the empty string when no entry matches or when
`issueDate`/`maturityDate` is null on the query side; an entry whose own
`issueDate`/`maturityDate` is null never matches.  In particular, for an
entry `(k, id, d1, d2)` present in the table with a non-null key and
non-null dates — provided no earlier entry matches the same triple —
`find(k, d1, d2) = id`; and `find(k, d1, none)` (e.g. an unparseable
maturity date) returns the empty string. -/
theorem lookupFind_spec (tbl : List LookupEntry) (k : Value) (d1 d2 : Option Nat) :
    (d1 = none ∨ d2 = none → lookupFind tbl k d1 d2 = Value.str "") ∧
    ((∀ e ∈ tbl, entryMatches k d1 d2 e = false) →
      lookupFind tbl k d1 d2 = Value.str "") ∧
    (∀ e : LookupEntry, e.issue = none ∨ e.maturity = none →
      entryMatches k d1 d2 e = false) ∧
    (∀ pre (e : LookupEntry) post, tbl = pre ++ e :: post →
      entryMatches k d1 d2 e = true →
      (∀ e2 ∈ pre, entryMatches k d1 d2 e2 = false) →
      lookupFind tbl k d1 d2 = e.isin) ∧
    (∀ pre (e : LookupEntry) post, tbl = pre ++ e :: post →
      e.nbfc ≠ Value.null → e.issue ≠ none → e.maturity ≠ none →
      k = e.nbfc → d1 = e.issue → d2 = e.maturity →
      (∀ e2 ∈ pre, entryMatches k d1 d2 e2 = false) →
      lookupFind tbl k d1 d2 = e.isin) := by
  have hnomatch : (∀ e ∈ tbl, entryMatches k d1 d2 e = false) →
      lookupFind tbl k d1 d2 = Value.str "" := by
    intro h
    unfold lookupFind
    rw [List.find?_eq_none.mpr (fun e he => by simp [h e he])]
  have hfirst : ∀ pre (e : LookupEntry) post, tbl = pre ++ e :: post →
      entryMatches k d1 d2 e = true →
      (∀ e2 ∈ pre, entryMatches k d1 d2 e2 = false) →
      lookupFind tbl k d1 d2 = e.isin := by
    intro pre e post htbl he hpre
    unfold lookupFind
    rw [htbl, List.find?_append, List.find?_eq_none.mpr (fun x hx => by simp [hpre x hx]),
      Option.none_or, List.find?_cons_of_pos _ he]
  refine ⟨?_, hnomatch, ?_, hfirst, ?_⟩
  · rintro (h1 | h2)
    · exact hnomatch (fun e _ => by
        simp [entryMatches, h1, optDateEq_none_right])
    · exact hnomatch (fun e _ => by
        simp [entryMatches, h2, optDateEq_none_right])
  · rintro e (h1 | h2)
    · simp [entryMatches, h1, optDateEq_none_left]
    · simp [entryMatches, h2, optDateEq_none_left]
  · intro pre e post htbl hk hi hm hkq h1q h2q hpre
    refine hfirst pre e post htbl ?_ hpre
    rw [entryMatches, hkq, h1q, h2q, valEq_self _ hk, optDateEq_self _ hi,
      optDateEq_self _ hm]
    rfl

/-- Witness for C2 on a concrete singleton table: the inserted entry is
found, and a null maturity query returns the empty string. -/
theorem lookupFind_spec_witness :
    lookupFind [⟨Value.str "k", Value.str "A", some 1, some 2⟩]
      (Value.str "k") (some 1) (some 2) = Value.str "A" ∧
    lookupFind [⟨Value.str "k", Value.str "A", some 1, some 2⟩]
      (Value.str "k") (some 1) none = Value.str "" :=
  ⟨(lookupFind_spec _ _ _ _).2.2.2.1 [] ⟨Value.str "k", Value.str "A", some 1, some 2⟩ []
      rfl (by decide) (by simp),
   (lookupFind_spec _ _ _ _).1 (Or.inr rfl)⟩

/-! ## Frame lemmas for the enrichment step -/

theorem get_insertISIN (r : Row) (c : String) (hc : c ≠ "ISIN") :
    Row.get (insertISIN r) c = Row.get r c := by
  have hisin : ("ISIN" == c) = false := by
    simp only [beq_eq_false_iff_ne, ne_eq]
    exact fun h => hc h.symm
  induction r with
  | nil => rfl
  | cons p rest ih =>
    obtain ⟨k, v⟩ := p
    by_cases hk : (k == "NBFC") = true
    · rw [insertISIN, if_pos hk]
      by_cases hkc : (k == c) = true
      · simp [Row.get_cons, hkc]
      · simp [Row.get_cons, hkc, hisin]
    · rw [insertISIN, if_neg hk]
      by_cases hkc : (k == c) = true
      · simp [Row.get_cons, hkc]
      · simp [Row.get_cons, hkc, ih]

theorem get_coerceDates (r : Row) (c : String)
    (h2 : c ≠ "Issue Date") (h3 : c ≠ "Maturity Date") :
    Row.get (coerceDates r) c = Row.get r c := by
  induction r with
  | nil => rfl
  | cons p rest ih =>
    obtain ⟨k, v⟩ := p
    rw [coerceDates, List.map_cons]
    by_cases hd : (k == "Issue Date" || k == "Maturity Date") = true
    · have hne : (k == c) = false := by
        simp only [beq_eq_false_iff_ne, ne_eq]
        rcases (by simpa using hd : k = "Issue Date" ∨ k = "Maturity Date") with h | h
        · exact fun hkc => h2 (hkc ▸ h)
        · exact fun hkc => h3 (hkc ▸ h)
      simp only [coerceDateCell, if_pos hd]
      rw [Row.get_cons, Row.get_cons, hne]
      simpa [coerceDates] using ih
    · simp only [coerceDateCell, if_neg hd]
      rw [Row.get_cons, Row.get_cons]
      by_cases hkc : (k == c) = true
      · simp [hkc]
      · simpa [hkc, coerceDates] using ih

theorem get_map_replace (r : Row) (c c2 : String) (v : Value) (h : c ≠ c2) :
    Row.get (r.map (fun p => if p.1 == c2 then (p.1, v) else p)) c = Row.get r c := by
  induction r with
  | nil => rfl
  | cons p rest ih =>
    obtain ⟨k, w⟩ := p
    rw [List.map_cons]
    by_cases hk : (k == c2) = true
    · have hne : (k == c) = false := by
        simp only [beq_eq_false_iff_ne, ne_eq]
        exact fun hkc => h (hkc ▸ beq_iff_eq.mp hk)
      simp only [Row.get_cons, if_pos hk, hne, if_neg (by simp [hne] : ¬(k == c) = true)]
      exact ih
    · by_cases hkc : (k == c) = true
      · simp only [Row.get_cons, if_neg hk, if_pos hkc]
      · simp only [Row.get_cons, if_neg hk, if_neg hkc]
        exact ih

theorem get_append_single (r : Row) (c c2 : String) (v : Value) (h : c ≠ c2) :
    Row.get (r ++ [(c2, v)]) c = Row.get r c := by
  induction r with
  | nil =>
    have hne : (c2 == c) = false := by
      simp only [beq_eq_false_iff_ne, ne_eq]
      exact fun hkc => h (hkc ▸ rfl)
    simp [Row.get_cons, hne, Row.get_nil]
  | cons p rest ih =>
    obtain ⟨k, w⟩ := p
    rw [List.cons_append]
    by_cases hkc : (k == c) = true
    · simp [Row.get_cons, hkc]
    · simp [Row.get_cons, hkc, ih]

theorem get_setCol (r : Row) (c c2 : String) (v : Value) (h : c ≠ c2) :
    Row.get (setCol r c2 v) c = Row.get r c := by
  unfold setCol
  split
  · exact get_map_replace r c c2 v h
  · exact get_append_single r c c2 v h

theorem getD_map_row (f : Row → Row) (l : List Row) (i : Nat) (hi : i < l.length) :
    (l.map f).getD i [] = f (l.getD i []) := by
  induction l generalizing i with
  | nil => simp at hi
  | cons a t ih =>
    cases i with
    | zero => rfl
    | succ n =>
      simp only [List.map_cons, List.getD_cons_succ]
      exact ih n (by simpa using hi)

/-- C3 counterexample: the enrichment step does change a field other
than `"ISIN"` — with a lookup table present, the `"Issue Date"` cell of
a row is overwritten by its coerced date value, so it differs between
IdentifierResolver's input and output. -/
theorem enrichPost_frame_counterexample :
    Row.get ((enrichPost (some [])
        [[("NBFC", Value.str "X"), ("Issue Date", Value.str "2020-01-01"),
          ("Maturity Date", Value.str "2021-06-30")]]).getD 0 []) "Issue Date"
      ≠ Row.get (([[("NBFC", Value.str "X"), ("Issue Date", Value.str "2020-01-01"),
          ("Maturity Date", Value.str "2021-06-30")]] : List Row).getD 0 []) "Issue Date" := by
  decide

/-- C3 (amended): the enrichment step writes only the `"ISIN"` field and
— when a lookup table is present and both date columns exist — the
`"Issue Date"` and `"Maturity Date"` fields, which it overwrites with
their coerced date values; every field of every row other than those
three is unchanged between IdentifierResolver's input and output, and
the number and order of rows is preserved. -/
theorem enrichPost_frame (lookupTbl : Option (List LookupEntry)) (rows : List Row)
    (i : Nat) (c : String) (hi : i < rows.length)
    (h1 : c ≠ "ISIN") (h2 : c ≠ "Issue Date") (h3 : c ≠ "Maturity Date") :
    (enrichPost lookupTbl rows).length = rows.length ∧
    Row.get ((enrichPost lookupTbl rows).getD i []) c = Row.get (rows.getD i []) c := by
  have hins_len : (insertStep rows).length = rows.length := by
    unfold insertStep
    split <;> simp
  have hins_get : Row.get ((insertStep rows).getD i []) c = Row.get (rows.getD i []) c := by
    unfold insertStep
    split
    · rw [getD_map_row _ _ _ hi, get_insertISIN _ _ h1]
    · rfl
  cases lookupTbl with
  | none => exact ⟨hins_len, hins_get⟩
  | some lk =>
    simp only [enrichPost]
    split
    · refine ⟨by simp [hins_len], ?_⟩
      have hi2 : i < ((insertStep rows).map coerceDates).length := by
        simpa [hins_len] using hi
      rw [getD_map_row _ _ _ hi2, get_setCol _ _ _ _ h1,
        getD_map_row _ _ _ (by simpa [hins_len] using hi),
        get_coerceDates _ _ h2 h3, hins_get]
    · exact ⟨hins_len, hins_get⟩

/-- Witness for C3 on a concrete one-row table: the `"Units"` field is
untouched by the enrichment step. -/
theorem enrichPost_frame_witness :
    (enrichPost none [[("NBFC", Value.str "X"), ("Units", Value.num 3)]]).length =
      ([[("NBFC", Value.str "X"), ("Units", Value.num 3)]] : List Row).length ∧
    Row.get ((enrichPost none [[("NBFC", Value.str "X"), ("Units", Value.num 3)]]).getD 0 []) "Units"
      = Row.get (([[("NBFC", Value.str "X"), ("Units", Value.num 3)]] : List Row).getD 0 []) "Units" :=
  enrichPost_frame none _ 0 "Units" (by decide) (by decide) (by decide) (by decide)

/-! ## Formatter lemmas -/

/-- C4: in a column whose name contains the substring `"Interest"`,
every non-null cell is given the two-decimal percentage number format,
and a numeric cell whose value is strictly greater than 1 is stored
divided by 100 (a numeric cell at most 1 keeps its value). -/
theorem renderCell_interest (col : String) (v : Value)
    (hcol : strContains col "Interest" = true) (hv : v ≠ Value.null) :
    (renderCell col v).2 = Style.percentage ∧
    (renderCell col v).2.numberFormat = "0.00%" ∧
    (∀ q : Rat, v = Value.num q → 1 < q → (renderCell col v).1 = Value.num (q / 100)) ∧
    (∀ q : Rat, v = Value.num q → ¬1 < q → (renderCell col v).1 = Value.num q) := by
  unfold renderCell
  rw [if_pos hcol, if_pos hv]
  refine ⟨rfl, rfl, ?_, ?_⟩
  · rintro q rfl hq
    simp [hq]
  · rintro q rfl hq
    simp [hq]

/-- Witness for C4: the cell `5` of a column named `"Interest Rate"` is
stored as `5 / 100` (that is, `0.05`) with the percentage style. -/
theorem renderCell_interest_witness :
    (renderCell "Interest Rate" (Value.num 5)).2 = Style.percentage ∧
    (renderCell "Interest Rate" (Value.num 5)).1 = Value.num (5 / 100) :=
  ⟨(renderCell_interest "Interest Rate" (Value.num 5) (by decide) (by decide)).1,
   (renderCell_interest "Interest Rate" (Value.num 5) (by decide) (by decide)).2.2.1 5 rfl
     (by decide)⟩

/-- C6 counterexample: the column name `"DATE"` contains `"Date"` under
case-insensitive comparison and contains neither `"issue"` nor
`"maturity"`, yet the code (which tests `'Date' in str(col_name)`
case-sensitively) does not give its cells the day-month-year style. -/
theorem renderCell_date_styles_counterexample :
    strContainsCI "DATE" "Date" = true ∧
    strContainsCI "DATE" "issue" = false ∧
    strContainsCI "DATE" "maturity" = false ∧
    Value.date 5 ≠ Value.null ∧
    (renderCell "DATE" (Value.date 5)).2 ≠ Style.dateDMY := by decide

/-- C6 (amended): the `"Date"` rule matches the column name
case-sensitively (only the `"issue"`/`"maturity"` exclusion is
case-insensitive): for a column that matched neither the `"Interest"`
nor the `"Amount"` rule, if the name contains `"Date"` (case-sensitive)
and does not case-insensitively contain `"issue"` or `"maturity"`, every
non-null data cell gets the day-month-year (`DD-MMM-YY`) style; if that
rule does not fire and the name case-insensitively contains one of
`"issue date"`, `"maturity date"`, `"issue"`, `"maturity"`, every
non-null data cell gets the month-year (`MMM-YY`) style — the rules
being tried in source order, first match wins. -/
theorem renderCell_date_styles (col : String) (v : Value) (hv : v ≠ Value.null)
    (hI : strContains col "Interest" = false)
    (hA : strContains col "Amount" = false) :
    ((strContains col "Date" &&
        !(strContainsLower col "issue" || strContainsLower col "maturity")) = true →
      (renderCell col v).2 = Style.dateDMY ∧
      (renderCell col v).2.numberFormat = "DD-MMM-YY") ∧
    ((strContains col "Date" &&
        !(strContainsLower col "issue" || strContainsLower col "maturity")) = false →
      (strContainsLower col "issue date" || strContainsLower col "maturity date" ||
        strContainsLower col "issue" || strContainsLower col "maturity") = true →
      (renderCell col v).2 = Style.monthYear ∧
      (renderCell col v).2.numberFormat = "MMM-YY") := by
  unfold renderCell
  rw [if_neg (by simp [hI]), if_neg (by simp [hA])]
  constructor
  · intro h3
    rw [if_pos h3, if_pos hv]
    exact ⟨rfl, rfl⟩
  · intro h3 h4
    rw [if_neg (by rw [h3]; decide), if_pos h4, if_pos hv]
    exact ⟨rfl, rfl⟩

/-- Witness for C6: a `"Trade Date"` column cell gets the day-month-year
style, and a `"Maturity Date"` column cell gets the month-year style. -/
theorem renderCell_date_styles_witness :
    ((renderCell "Trade Date" (Value.date 3)).2 = Style.dateDMY ∧
      (renderCell "Trade Date" (Value.date 3)).2.numberFormat = "DD-MMM-YY") ∧
    ((renderCell "Maturity Date" (Value.date 3)).2 = Style.monthYear ∧
      (renderCell "Maturity Date" (Value.date 3)).2.numberFormat = "MMM-YY") :=
  ⟨(renderCell_date_styles "Trade Date" (Value.date 3) (by decide) (by decide)
      (by decide)).1 (by decide),
   (renderCell_date_styles "Maturity Date" (Value.date 3) (by decide) (by decide)
      (by decide)).2 (by decide) (by decide)⟩

/-! ## Pipeline outcome lemmas -/

theorem sheetContribution_eq_none_iff (lookupTbl : Option (List LookupEntry))
    (sel : List String) (s : List Row) :
    sheetContribution lookupTbl sel s = none ↔ rowFilter s sel = [] := by
  unfold sheetContribution
  split <;> simp_all [List.isEmpty_iff]

theorem combinedTables_eq_nil_iff (lookupTbl : Option (List LookupEntry))
    (sheets : List (List Row)) (sel : List String) :
    combinedTables lookupTbl sheets sel = [] ↔ ∀ s ∈ sheets, rowFilter s sel = [] := by
  rw [combinedTables, List.filterMap_eq_nil_iff]
  exact forall₂_congr (fun s _ => sheetContribution_eq_none_iff lookupTbl sel s)

theorem pipeline_info_iff (lookupTbl : Option (List LookupEntry))
    (sheets : List (List Row)) (sel : List String) (hsel : sel ≠ []) :
    pipeline lookupTbl sheets sel = .info ↔ ∀ s ∈ sheets, rowFilter s sel = [] := by
  unfold pipeline
  rw [if_neg (fun h => hsel (List.isEmpty_iff.mp h)),
    ← combinedTables_eq_nil_iff lookupTbl sheets sel]
  by_cases hc : (combinedTables lookupTbl sheets sel).isEmpty = true
  · rw [if_pos hc]
    simp [List.isEmpty_iff.mp hc]
  · rw [if_neg hc]
    constructor
    · intro h
      exact Outcome.noConfusion h
    · intro h
      exact absurd h (by simp_all [List.isEmpty_iff])

theorem pipeline_artifact_iff (lookupTbl : Option (List LookupEntry))
    (sheets : List (List Row)) (sel : List String) (hsel : sel ≠ []) :
    (∃ rows, pipeline lookupTbl sheets sel = .artifact rows) ↔
      ∃ s ∈ sheets, rowFilter s sel ≠ [] := by
  unfold pipeline
  rw [if_neg (fun h => hsel (List.isEmpty_iff.mp h))]
  by_cases hc : (combinedTables lookupTbl sheets sel).isEmpty = true
  · rw [if_pos hc]
    have hall := (combinedTables_eq_nil_iff lookupTbl sheets sel).mp (List.isEmpty_iff.mp hc)
    constructor
    · rintro ⟨rows, h⟩
      exact Outcome.noConfusion h
    · rintro ⟨s, hs, hne⟩
      exact absurd (hall s hs) hne
  · rw [if_neg hc]
    constructor
    · intro _
      by_contra hno
      push_neg at hno
      exact hc (by
        simp only [List.isEmpty_iff]
        exact (combinedTables_eq_nil_iff lookupTbl sheets sel).mpr hno)
    · intro _
      exact ⟨(combinedTables lookupTbl sheets sel).flatten, rfl⟩

/-- C5: with a non-empty selection, the pipeline reports the
"no matching rows" notice exactly when filtering kept zero rows across
all sheets, and it builds the downloadable artifact exactly when at
least one sheet kept at least one row. -/
theorem pipeline_empty_result (lookupTbl : Option (List LookupEntry))
    (sheets : List (List Row)) (sel : List String) (hsel : sel ≠ [])
    (hwf : ∀ s ∈ sheets, ∀ r ∈ s, Row.hasCol r "Name" = true ∧ Row.hasCol r "Units" = true) :
    (pipeline lookupTbl sheets sel = .info ↔ ∀ s ∈ sheets, rowFilter s sel = []) ∧
    ((∃ rows, pipeline lookupTbl sheets sel = .artifact rows) ↔
      ∃ s ∈ sheets, rowFilter s sel ≠ []) :=
  ⟨pipeline_info_iff lookupTbl sheets sel hsel, pipeline_artifact_iff lookupTbl sheets sel hsel⟩

/-- Witness for C5: a sheet whose only row has a non-selected name
produces the informational outcome. -/
theorem pipeline_empty_result_witness :
    pipeline none [[[("Name", Value.str "B"), ("Units", Value.num 1)]]] ["A"] = .info :=
  (pipeline_empty_result none [[[("Name", Value.str "B"), ("Units", Value.num 1)]]] ["A"]
      (by decide) (by decide)).1.mpr (by decide)

/-! ## No-lookup enrichment lemmas -/

theorem get_dropGhost (r : Row) (c : String) (hc : isGhostCol c = false) :
    Row.get (dropGhost r) c = Row.get r c := by
  induction r with
  | nil => rfl
  | cons p rest ih =>
    obtain ⟨k, w⟩ := p
    have hstep : dropGhost ((k, w) :: rest) =
        if (!isGhostCol k) = true then (k, w) :: dropGhost rest else dropGhost rest := by
      simp [dropGhost, List.filter_cons]
    rw [hstep]
    by_cases hg : isGhostCol k = true
    · have hne : (k == c) = false := by
        cases h : (k == c)
        · rfl
        · exfalso
          rw [beq_iff_eq.mp h] at hg
          rw [hg] at hc
          exact Bool.noConfusion hc
      rw [if_neg (by rw [hg]; decide), Row.get_cons, hne,
        if_neg (by decide : ¬(false = true))]
      exact ih
    · have hg2 : (!isGhostCol k) = true := by
        cases h : isGhostCol k
        · rfl
        · exact absurd h hg
      rw [if_pos hg2, Row.get_cons, Row.get_cons]
      by_cases hkc : (k == c) = true
      · simp [hkc]
      · simp [hkc, ih]

theorem hasCol_cons (k : String) (v : Value) (rest : Row) (c : String) :
    Row.hasCol ((k, v) :: rest) c = (k == c || Row.hasCol rest c) := by
  simp [Row.hasCol]

theorem get_insertISIN_self (r : Row) (hnb : Row.hasCol r "NBFC" = true)
    (hno : Row.hasCol r "ISIN" = false) :
    Row.get (insertISIN r) "ISIN" = Value.str "" := by
  induction r with
  | nil => exact absurd hnb (by simp [Row.hasCol])
  | cons p rest ih =>
    obtain ⟨k, v⟩ := p
    rw [hasCol_cons] at hnb hno
    have hki : (k == "ISIN") = false := by
      cases h : (k == "ISIN") <;> simp_all
    by_cases hk : (k == "NBFC") = true
    · rw [insertISIN, if_pos hk, Row.get_cons, hki]
      simp [Row.get_cons]
    · rw [insertISIN, if_neg hk, Row.get_cons, hki,
        if_neg (by decide : ¬(false = true))]
      refine ih ?_ ?_
      · simp only [hk, Bool.false_or] at hnb
        exact hnb
      · cases h : Row.hasCol rest "ISIN" <;> simp_all

theorem colIndex_insertISIN (r : Row) (hnb : Row.hasCol r "NBFC" = true)
    (hno : Row.hasCol r "ISIN" = false) :
    colIndex "ISIN" (insertISIN r) = colIndex "NBFC" (insertISIN r) + 1 := by
  induction r with
  | nil => exact absurd hnb (by simp [Row.hasCol])
  | cons p rest ih =>
    obtain ⟨k, v⟩ := p
    rw [hasCol_cons] at hnb hno
    have hki : (k == "ISIN") = false := by
      cases h : (k == "ISIN") <;> simp_all
    by_cases hk : (k == "NBFC") = true
    · rw [insertISIN, if_pos hk]
      simp [colIndex, hki, hk]
    · rw [insertISIN, if_neg hk]
      have hrest := ih (by simp_all) (by cases h : Row.hasCol rest "ISIN" <;> simp_all)
      simp [colIndex, hki, hk, hrest]

/-- C10: with no lookup workbook uploaded, the pipeline still produces
an artifact whenever some sheet keeps a matching row; for a filtered
table whose (ghost-stripped) rows carry an `"NBFC"` column and no
pre-existing `"ISIN"` column, the processed rows carry an `"ISIN"`
column holding the empty string, positioned immediately after `"NBFC"`,
and the `"Issue Date"` / `"Maturity Date"` values are not date-coerced:
they are unchanged from the input rows. -/
theorem pipeline_no_lookup (sheets : List (List Row)) (sel : List String) (rows : List Row)
    (hsel : sel ≠ []) (hmatch : ∃ s ∈ sheets, rowFilter s sel ≠ [])
    (hnb : (tableCols (rows.map dropGhost)).contains "NBFC" = true)
    (hrows : ∀ r ∈ rows, Row.hasCol (dropGhost r) "NBFC" = true ∧
      Row.hasCol (dropGhost r) "ISIN" = false) :
    (∃ out, pipeline none sheets sel = .artifact out) ∧
    (∀ r ∈ processSheet none rows, Row.get r "ISIN" = Value.str "") ∧
    (∀ r ∈ processSheet none rows, colIndex "ISIN" r = colIndex "NBFC" r + 1) ∧
    (∀ i, i < rows.length →
      Row.get ((processSheet none rows).getD i []) "Issue Date" =
        Row.get (rows.getD i []) "Issue Date" ∧
      Row.get ((processSheet none rows).getD i []) "Maturity Date" =
        Row.get (rows.getD i []) "Maturity Date") := by
  have hps : processSheet none rows = (rows.map dropGhost).map insertISIN := by
    unfold processSheet enrichPost insertStep
    rw [if_pos hnb]
  refine ⟨(pipeline_artifact_iff none sheets sel hsel).mpr hmatch, ?_, ?_, ?_⟩
  · intro r hr
    rw [hps] at hr
    rcases List.mem_map.mp hr with ⟨r1, hr1, rfl⟩
    rcases List.mem_map.mp hr1 with ⟨r0, hr0, rfl⟩
    exact get_insertISIN_self _ (hrows r0 hr0).1 (hrows r0 hr0).2
  · intro r hr
    rw [hps] at hr
    rcases List.mem_map.mp hr with ⟨r1, hr1, rfl⟩
    rcases List.mem_map.mp hr1 with ⟨r0, hr0, rfl⟩
    exact colIndex_insertISIN _ (hrows r0 hr0).1 (hrows r0 hr0).2
  · intro i hi
    have hi1 : i < (rows.map dropGhost).length := by simpa using hi
    rw [hps]
    constructor <;>
      rw [getD_map_row _ _ _ hi1, get_insertISIN _ _ (by decide), getD_map_row _ _ _ hi,
        get_dropGhost _ _ (by decide)]

/-- Witness for C10 on a one-sheet, one-row workbook with no lookup
file: the artifact is produced and the row's date cell is untouched. -/
theorem pipeline_no_lookup_witness :
    ∃ out, pipeline none
      [[[("Name", Value.str "A"), ("Units", Value.num 2), ("NBFC", Value.str "X"),
         ("Issue Date", Value.str "2020-01-01")]]] ["A"] = .artifact out :=
  (pipeline_no_lookup
      [[[("Name", Value.str "A"), ("Units", Value.num 2), ("NBFC", Value.str "X"),
         ("Issue Date", Value.str "2020-01-01")]]] ["A"]
      [[("Name", Value.str "A"), ("Units", Value.num 2), ("NBFC", Value.str "X"),
         ("Issue Date", Value.str "2020-01-01")]]
      (by decide) (by decide) (by decide) (by decide)).1

/-! ## Column-width lemmas -/

theorem foldl_widthStep_eq_filter (l : List Value) :
    ∀ m : Nat, l.foldl widthStep m =
      (l.filter truthy).foldl (fun x y => max x (cellStr y).length) m := by
  induction l with
  | nil => intro m; rfl
  | cons v t ih =>
    intro m
    rw [List.foldl_cons, List.filter_cons]
    by_cases ht : truthy v = true
    · have hstep : widthStep m v = max m (cellStr v).length := by
        unfold widthStep
        rw [ht]
        by_cases hlt : m < (cellStr v).length
        · simp [hlt, Nat.max_eq_right (le_of_lt hlt)]
        · simp [hlt, Nat.max_eq_left (not_lt.mp hlt)]
      rw [ht, if_pos rfl, List.foldl_cons, hstep]
      exact ih _
    · have ht2 : truthy v = false := by
        cases h : truthy v
        · rfl
        · exact absurd h ht
      have hstep : widthStep m v = m := by
        unfold widthStep
        rw [ht2]
        rfl
      rw [hstep, ht2, if_neg (by decide : ¬(false = true))]
      exact ih m

/-- C7 counterexample: the width loop skips falsy cell values
(`if cell.value and ...`), and a falsy cell can stringify longer than
every counted cell — a column with header `"No"` (2 characters) over a
single `FALSE` cell (`str(False) = "False"`, 5 characters) is assigned
width `min(2 + 2, 50) = 4`, not the claimed `min(5 + 2, 50) = 7`. -/
theorem codeColWidth_counterexample :
    codeColWidth "No" [Value.bool false] = 4 ∧
    min (specLongest "No" [Value.bool false] + 2) 50 = 7 ∧
    codeColWidth "No" [Value.bool false] ≠
      min (specLongest "No" [Value.bool false] + 2) 50 := by decide

/-- C7 (amended): the assigned column width equals `min(L + 2, 50)`
where `L` is the length of the longest stringified value among the
column's truthy cells, headers and data cells alike — cells whose value
is falsy (`None`, `0`, the empty string, `False`) are skipped by the
loop's `if cell.value and ...` guard and do not contribute (`L = 0`
when every cell is falsy).  Both sides of the equation stringify cells
with the same function, so the statement does not depend on the exact
textual rendering of a value. -/
theorem codeColWidth_skips_falsy (header : String) (cells : List Value) :
    codeColWidth header cells = min (specLongestKept header cells + 2) 50 := by
  unfold codeColWidth codeMaxLen specLongestKept
  rw [List.foldl_map, foldl_widthStep_eq_filter]

/-! ## Sorting and name-collection lemmas -/

theorem listLeChar_cons_iff (x y : Char) (xs ys : List Char) :
    listLeChar (x :: xs) (y :: ys) = true ↔
      x.toNat < y.toNat ∨ (x.toNat = y.toNat ∧ listLeChar xs ys = true) := by
  simp only [listLeChar]
  by_cases h1 : x.toNat < y.toNat
  · simp [h1]
  · by_cases h2 : y.toNat < x.toNat
    · simp only [if_neg h1, if_pos h2]
      constructor
      · intro h
        exact Bool.noConfusion h
      · rintro (h | ⟨h, _⟩)
        · omega
        · omega
    · have heq : x.toNat = y.toNat := by omega
      simp [h1, h2, heq]

theorem listLeChar_total : ∀ a b : List Char, listLeChar a b = true ∨ listLeChar b a = true := by
  intro a
  induction a with
  | nil => intro b; left; rfl
  | cons x xs ih =>
    intro b
    cases b with
    | nil => right; rfl
    | cons y ys =>
      rcases Nat.lt_trichotomy x.toNat y.toNat with h | h | h
      · left
        exact (listLeChar_cons_iff ..).mpr (Or.inl h)
      · rcases ih ys with h2 | h2
        · left
          exact (listLeChar_cons_iff ..).mpr (Or.inr ⟨h, h2⟩)
        · right
          exact (listLeChar_cons_iff ..).mpr (Or.inr ⟨h.symm, h2⟩)
      · right
        exact (listLeChar_cons_iff ..).mpr (Or.inl h)

theorem listLeChar_trans : ∀ a b c : List Char,
    listLeChar a b = true → listLeChar b c = true → listLeChar a c = true := by
  intro a
  induction a with
  | nil => intro b c _ _; rfl
  | cons x xs ih =>
    intro b c hab hbc
    cases b with
    | nil => exact absurd hab (by simp [listLeChar])
    | cons y ys =>
      cases c with
      | nil => exact absurd hbc (by simp [listLeChar])
      | cons z zs =>
        rcases (listLeChar_cons_iff ..).mp hab with h1 | ⟨h1, h1r⟩ <;>
          rcases (listLeChar_cons_iff ..).mp hbc with h2 | ⟨h2, h2r⟩
        · exact (listLeChar_cons_iff ..).mpr (Or.inl (by omega))
        · exact (listLeChar_cons_iff ..).mpr (Or.inl (by omega))
        · exact (listLeChar_cons_iff ..).mpr (Or.inl (by omega))
        · exact (listLeChar_cons_iff ..).mpr (Or.inr ⟨by omega, ih ys zs h1r h2r⟩)

theorem strLe_total (a b : String) : strLe a b = true ∨ strLe b a = true :=
  listLeChar_total a.data b.data

theorem strLe_trans {a b c : String} (h1 : strLe a b = true) (h2 : strLe b c = true) :
    strLe a c = true :=
  listLeChar_trans a.data b.data c.data h1 h2

theorem insertSorted_perm (x : String) (l : List String) :
    List.Perm (insertSorted x l) (x :: l) := by
  induction l with
  | nil => exact List.Perm.refl _
  | cons y ys ih =>
    rw [insertSorted]
    by_cases h : strLe x y = true
    · rw [if_pos h]
    · rw [if_neg h]
      exact List.Perm.trans (List.Perm.cons y ih) (List.Perm.swap x y ys)

theorem sortNames_perm (l : List String) : List.Perm (sortNames l) l := by
  induction l with
  | nil => exact List.Perm.refl _
  | cons x xs ih =>
    exact List.Perm.trans (insertSorted_perm x (sortNames xs)) (List.Perm.cons x ih)

theorem pairwise_insertSorted (x : String) (l : List String)
    (hl : List.Pairwise (fun a b => strLe a b = true) l) :
    List.Pairwise (fun a b => strLe a b = true) (insertSorted x l) := by
  induction l with
  | nil => simp [insertSorted]
  | cons y ys ih =>
    rcases List.pairwise_cons.mp hl with ⟨hy, hys⟩
    rw [insertSorted]
    by_cases hxy : strLe x y = true
    · rw [if_pos hxy]
      refine List.pairwise_cons.mpr ⟨?_, hl⟩
      intro z hz
      rcases List.mem_cons.mp hz with rfl | hz2
      · exact hxy
      · exact strLe_trans hxy (hy z hz2)
    · rw [if_neg hxy]
      have hyx : strLe y x = true := (strLe_total x y).resolve_left hxy
      refine List.pairwise_cons.mpr ⟨?_, ih hys⟩
      intro z hz
      rcases List.mem_cons.mp ((insertSorted_perm x ys).mem_iff.mp hz) with rfl | hz2
      · exact hyx
      · exact hy z hz2

theorem sortNames_pairwise (l : List String) :
    List.Pairwise (fun a b => strLe a b = true) (sortNames l) := by
  induction l with
  | nil => exact List.Pairwise.nil
  | cons x xs ih => exact pairwise_insertSorted x (sortNames xs) ih

theorem mem_sheetNameStrings (s : Sheet) (x : String) :
    x ∈ sheetNameStrings s ↔ ∃ r ∈ s.rows,
      Row.get r "Name" ≠ Value.null ∧ Value.toStr (Row.get r "Name") = x := by
  unfold sheetNameStrings
  simp only [List.mem_map, List.mem_filterMap]
  constructor
  · rintro ⟨v, ⟨r, hr, hv⟩, rfl⟩
    have hgv : Row.get r "Name" = v := by
      cases hg : Row.get r "Name" <;> rw [hg] at hv
      case null => exact Option.noConfusion hv
      all_goals exact Option.some.inj hv
    refine ⟨r, hr, ?_, by rw [hgv]⟩
    intro hnull
    rw [hnull] at hv
    exact Option.noConfusion hv
  · rintro ⟨r, hr, hne, rfl⟩
    refine ⟨Row.get r "Name", ⟨r, hr, ?_⟩, rfl⟩
    cases hg : Row.get r "Name" <;> simp_all

theorem gatherNames_ok (sheets : List Sheet) (h : ∀ s ∈ sheets, "Name" ∈ s.cols) :
    gatherNames sheets = .ok (sheets.flatMap sheetNameStrings) := by
  induction sheets with
  | nil => rfl
  | cons s rest ih =>
    rw [gatherNames, if_pos (by simpa using h s (List.mem_cons_self s rest)),
      ih (fun t ht => h t (List.mem_cons_of_mem s ht))]
    rfl

/-- C9: name collection succeeds exactly when every sheet of the
workbook has a `"Name"` column; as soon as some sheet lacks one, it
surfaces a schema error (no sheet is silently skipped and no data is
fabricated). -/
theorem collectEntityNames_schema (sheets : List Sheet) :
    ((∃ l, collectEntityNames sheets = .ok l) ↔ ∀ s ∈ sheets, "Name" ∈ s.cols) ∧
    ((∃ s ∈ sheets, "Name" ∉ s.cols) → ∃ msg, collectEntityNames sheets = .error msg) := by
  have hgather : ∀ ss : List Sheet,
      (∃ l, gatherNames ss = .ok l) ↔ ∀ s ∈ ss, "Name" ∈ s.cols := by
    intro ss
    induction ss with
    | nil => simp [gatherNames]
    | cons s rest ih =>
      rw [gatherNames]
      by_cases hc : s.cols.contains "Name" = true
      · rw [if_pos hc]
        constructor
        · rintro ⟨l, hl⟩
          intro t ht
          rcases List.mem_cons.mp ht with rfl | ht2
          · simpa using hc
          · refine ih.mp ?_ t ht2
            cases hg : gatherNames rest with
            | ok l2 => exact ⟨l2, rfl⟩
            | error e =>
              rw [hg] at hl
              exact Except.noConfusion hl
        · intro hall
          rcases ih.mpr (fun t ht => hall t (List.mem_cons_of_mem s ht)) with ⟨l2, hl2⟩
          exact ⟨sheetNameStrings s ++ l2, by rw [hl2]; rfl⟩
      · rw [if_neg hc]
        constructor
        · rintro ⟨l, hl⟩
          exact Except.noConfusion hl
        · intro hall
          exact absurd (by simpa using hall s (List.mem_cons_self s rest)) hc
  have hmain : (∃ l, collectEntityNames sheets = .ok l) ↔ ∀ s ∈ sheets, "Name" ∈ s.cols := by
    rw [← hgather sheets]
    unfold collectEntityNames
    constructor
    · rintro ⟨l, hl⟩
      cases hg : gatherNames sheets with
      | ok l2 => exact ⟨l2, rfl⟩
      | error e =>
        rw [hg] at hl
        exact Except.noConfusion hl
    · rintro ⟨l2, hl2⟩
      exact ⟨sortNames l2.dedup, by rw [hl2]; rfl⟩
  refine ⟨hmain, ?_⟩
  rintro ⟨s, hs, hno⟩
  cases hg : collectEntityNames sheets with
  | error e => exact ⟨e, rfl⟩
  | ok l => exact absurd (hmain.mp ⟨l, hg⟩ s hs) hno

/-- Witness for C9: a single sheet without a `"Name"` column makes name
collection fail with a surfaced error. -/
theorem collectEntityNames_schema_witness :
    ∃ msg, collectEntityNames [⟨["Units"], []⟩] = .error msg :=
  (collectEntityNames_schema [⟨["Units"], []⟩]).2
    ⟨⟨["Units"], []⟩, List.mem_cons_self _ _, by decide⟩

/-- C8: when every sheet has a `"Name"` column, `collectEntityNames`
returns a lexicographically sorted, duplicate-free list whose members
are exactly the string-cast non-null `"Name"` values across all
sheets. -/
theorem collectEntityNames_spec (sheets : List Sheet)
    (h : ∀ s ∈ sheets, "Name" ∈ s.cols) :
    ∃ l, collectEntityNames sheets = .ok l ∧
      List.Pairwise (fun a b => strLe a b = true) l ∧
      l.Nodup ∧
      (∀ x, x ∈ l ↔ ∃ s ∈ sheets, ∃ r ∈ s.rows,
        Row.get r "Name" ≠ Value.null ∧ Value.toStr (Row.get r "Name") = x) := by
  refine ⟨sortNames (sheets.flatMap sheetNameStrings).dedup, ?_, ?_, ?_, ?_⟩
  · unfold collectEntityNames
    rw [gatherNames_ok sheets h]
    rfl
  · exact sortNames_pairwise _
  · exact (sortNames_perm _).nodup_iff.mpr (List.nodup_dedup _)
  · intro x
    rw [(sortNames_perm _).mem_iff, List.mem_dedup, List.mem_flatMap]
    constructor
    · rintro ⟨s, hs, hx⟩
      exact ⟨s, hs, (mem_sheetNameStrings s x).mp hx⟩
    · rintro ⟨s, hs, hx⟩
      exact ⟨s, hs, (mem_sheetNameStrings s x).mpr hx⟩

/-- Witness for C8: a one-sheet workbook with names "B", "A" and a null
collects to the sorted duplicate-free list with the stated membership. -/
theorem collectEntityNames_spec_witness :
    ∃ l, collectEntityNames
        [⟨["Name"], [[("Name", Value.str "B")], [("Name", Value.str "A")],
          [("Name", Value.null)], [("Name", Value.str "A")]]⟩] = .ok l ∧
      List.Pairwise (fun a b => strLe a b = true) l ∧
      l.Nodup ∧
      (∀ x, x ∈ l ↔ ∃ s ∈ [(⟨["Name"], [[("Name", Value.str "B")], [("Name", Value.str "A")],
          [("Name", Value.null)], [("Name", Value.str "A")]]⟩ : Sheet)], ∃ r ∈ s.rows,
        Row.get r "Name" ≠ Value.null ∧ Value.toStr (Row.get r "Name") = x) :=
  collectEntityNames_spec _ (by decide)

end BondExtractor
